import Mathlib

/-!
Shallow embedding of the go-querysql result-set cursor and its helpers,
translated from the repository sources (querysql.go second revision,
scanner.go first revision, parse.go, logrusmssql.go first revision,
and the field-mapper in the unnamed reflection file).

The `sql.Rows` handle is modelled as an optional pair of a current result
set and the list of remaining result sets; each result set carries its
column list, the error `Columns()` would report, its rows, and the error
`Rows.Err()` reports once iteration stops.  The ghost fields `nOps`,
`nClose` and `logTrace` are instrumentation recording the effects the Go
code performs on the handle (primitive handle operations, invocations of
the underlying close hook, and the result sets fed to the log sink); they
are not part of the Go struct and no code branches on them.
-/

namespace QuerySql

/-- Model of Go error values as used by the package: the `sql.ErrNoRows`
sentinel, values built by `fmt.Errorf` (with an optional `%w`-wrapped inner
error), and opaque driver/system errors identified by a number. -/
inductive Err where
  | sqlErrNoRows : Err
  | wrapped : String → Option Err → Err
  | other : Nat → Err

/-- Structural equality of modelled error values (Go `==` on error values;
two `fmt.Errorf` results are the same value only when built identically). -/
def Err.beq : Err → Err → Bool
  | .sqlErrNoRows, .sqlErrNoRows => true
  | .wrapped s none, .wrapped t none => s == t
  | .wrapped s (some a), .wrapped t (some b) => s == t && Err.beq a b
  | .other m, .other n => m == n
  | _, _ => false

/-- Go `errors.Is`: compare against the target, unwrapping `%w` chains. -/
def errorsIs (e target : Err) : Bool :=
  match e with
  | .wrapped s (some inner) =>
      Err.beq (.wrapped s (some inner)) target || errorsIs inner target
  | e' => Err.beq e' target

/-- `var ErrNoMoreSets = fmt.Errorf("no more result sets")` -/
def ErrNoMoreSets : Err := .wrapped "no more result sets" none

/-- `var ErrNotDone = fmt.Errorf("there are more result sets after reading last expected result")` -/
def ErrNotDone : Err :=
  .wrapped "there are more result sets after reading last expected result" none

/-- `var ErrZeroRowsExpectedOne = fmt.Errorf("query: 0 rows, expected 1: %w", sql.ErrNoRows)` -/
def ErrZeroRowsExpectedOne : Err :=
  .wrapped "query: 0 rows, expected 1: %w" (some .sqlErrNoRows)

/-- `var ErrManyRowsExpectedOne = fmt.Errorf("query: more than 1 row (use sliceScanner?)")` -/
def ErrManyRowsExpectedOne : Err :=
  .wrapped "query: more than 1 row (use sliceScanner?)" none

/-- `strings.ToLower` (basic-latin case folding, as Go applies it to column
names and level names), written over the character list so that it
evaluates by reduction. -/
def strToLower (s : String) : String :=
  ⟨s.data.map Char.toLower⟩

/-- One row of a result set; values are modelled as strings. -/
abbrev Row := List String

/-- One result set of the underlying stream: column names, the error
`Columns()` would return, the rows, and the error `Rows.Err()` reports
after row iteration stops. -/
structure ResultSet where
  cols : List String
  colsErr : Option Err
  rows : List Row
  rowsErr : Option Err


/-- The live `*sql.Rows` handle: the result set it is positioned on, the
remaining result sets, and the error the close hook would return. -/
structure RowsData where
  cur : ResultSet
  rest : List ResultSet
  closeErr : Option Err


/-- A `RowsLogger` consumes a positioned log result set (columns and rows)
and may fail. -/
abbrev LoggerFn := List String → List Row → Option Err

/-- Ghost record of one result set handed to `processLogSelect`:
what was consumed and whether a configured logger did the consuming. -/
structure LogEvent where
  cols : List String
  rows : List Row
  viaLogger : Bool


/-- The `ResultSets` cursor struct.  `rows = none` models a nil handle.
`nOps` counts primitive operations performed on the handle, `nClose`
counts invocations of the underlying close hook, and `logTrace` records
the result sets consumed by the log sink (ghost instrumentation). -/
structure ResultSets where
  rows : Option RowsData
  err : Option Err
  doneAfterNext : Bool
  logger : Option LoggerFn
  logKeyLowercase : String
  started : Bool
  nOps : Nat
  nClose : Nat
  logTrace : List LogEvent

/-- `New`: the constructor stores the unadorned query error (if any) in
`Err`; on error the returned handle is nil. -/
def New (queryRes : Except Err RowsData) (ctxLogger : Option LoggerFn) : ResultSets :=
  match queryRes with
  | .error e =>
      { rows := none, err := some e, doneAfterNext := false, logger := ctxLogger
        logKeyLowercase := "", started := false, nOps := 0, nClose := 0, logTrace := [] }
  | .ok rd =>
      { rows := some rd, err := none, doneAfterNext := false, logger := ctxLogger
        logKeyLowercase := "", started := false, nOps := 0, nClose := 0, logTrace := [] }

/-- `EnsureDoneAfterNext` sets the `DoneAfterNext` flag. -/
def ResultSets.EnsureDoneAfterNext (rs : ResultSets) : ResultSets :=
  { rs with doneAfterNext := true }

/-- `Done()` — true exactly when the handle is nil. -/
def ResultSets.Done (rs : ResultSets) : Bool :=
  rs.rows.isNone

/-- `Close()`: grab the handle, null it out, and only then delegate to the
underlying close hook (skipped when the handle is already nil). -/
def ResultSets.Close (rs : ResultSets) : ResultSets × Option Err :=
  match rs.rows with
  | none => (rs, none)
  | some rd =>
      ({ rs with rows := none, nOps := rs.nOps + 1, nClose := rs.nClose + 1 }, rd.closeErr)

/-- `hasLogColumn`, parameterised by the configured `LogKeyLowercase`. -/
def hasLogColumnKey (key : String) (cols : List String) : Bool :=
  match cols with
  | [] => false
  | c :: _ => c == "_" || (!(key == "") && strToLower c == key)

/-- `hasLogColumn` method of the cursor. -/
def ResultSets.hasLogColumn (rs : ResultSets) (cols : List String) : Bool :=
  hasLogColumnKey rs.logKeyLowercase cols

/-- Error outcome of `processLogSelect` on a positioned result set: with no
logger configured the rows are drained and `Rows.Err()` is returned; with a
logger, its error wins, else `Rows.Err()` is still checked. -/
def logSelectErr (lg : Option LoggerFn) (s : ResultSet) : Option Err :=
  match lg with
  | none => s.rowsErr
  | some f =>
      match f s.cols s.rows with
      | some e => some e
      | none => s.rowsErr

/-- `processLogSelect`: consume the current (log) result set through the
log sink, recording the consumption in the ghost trace. -/
def ResultSets.processLogSelect (rs : ResultSets) : ResultSets × Option Err :=
  match rs.rows with
  | none => (rs, none)
  | some rd =>
      ({ rs with nOps := rs.nOps + 1
                 logTrace := rs.logTrace ++ [⟨rd.cur.cols, rd.cur.rows, rs.logger.isSome⟩] },
       logSelectErr rs.logger rd.cur)

/-- `nextResultSet`: advance the stream; at the end of the stream close the
handle (returning the close hook's error), which also makes `Done()` true. -/
def ResultSets.nextResultSet (rs : ResultSets) : ResultSets × Option Err :=
  match rs.rows with
  | none => (rs, none)
  | some rd =>
      match rd.rest with
      | r :: rest2 =>
          ({ rs with rows := some ⟨r, rest2, rd.closeErr⟩, nOps := rs.nOps + 1 }, none)
      | [] => ResultSets.Close { rs with nOps := rs.nOps + 1 }

/-- `processAllLogSelects`: the `for !rs.Done()` loop.  Inspect the current
result set's columns; a `Columns()` error or an empty column list stops with
`hadColumns = false`; a log result set is consumed (`processLogSelect`,
inlined) and the stream advanced (`nextResultSet`, inlined — advance or
close at end of stream) before looping; a non-log result set stops with
`hadColumns = true`. -/
def ResultSets.processAllLogSelects (rs : ResultSets) : ResultSets × Bool × Option Err :=
  match hr : rs.rows with
  | none => (rs, true, none)
  | some rd =>
      match rd.cur.colsErr with
      | some e => ({ rs with nOps := rs.nOps + 1 }, false, some e)
      | none =>
          if rd.cur.cols = [] then
            ({ rs with nOps := rs.nOps + 1 }, false, none)
          else if hasLogColumnKey rs.logKeyLowercase rd.cur.cols then
            let rs1 : ResultSets :=
              { rs with nOps := rs.nOps + 2
                        logTrace := rs.logTrace ++ [⟨rd.cur.cols, rd.cur.rows, rs.logger.isSome⟩] }
            match logSelectErr rs.logger rd.cur with
            | some e => (rs1, false, some e)
            | none =>
                match hrest : rd.rest with
                | r :: rest2 =>
                    ResultSets.processAllLogSelects
                      { rs1 with rows := some ⟨r, rest2, rd.closeErr⟩, nOps := rs1.nOps + 1 }
                | [] =>
                    let rs2 : ResultSets :=
                      { rs1 with rows := none, nOps := rs1.nOps + 2, nClose := rs1.nClose + 1 }
                    match rd.closeErr with
                    | some e => (rs2, false, some e)
                    | none => (rs2, true, none)
          else
            ({ rs with nOps := rs.nOps + 1 }, true, none)
termination_by (match rs.rows with | none => 0 | some rd => rd.rest.length + 1)
decreasing_by
  simp [hr, hrest]

/-- The `for rs.Rows.Next()` scan loop of `NextWithSqlResult`: each row goes
to the scanner (modelled as a state-transition function); a nil scanner
reads and discards; a scanner error stops the loop. -/
def scanRows {σ : Type} (scan : Option (σ → Row → σ × Option Err)) :
    σ → List Row → σ × Option Err
  | s, [] => (s, none)
  | s, r :: rest =>
      match scan with
      | none => scanRows scan s rest
      | some f =>
          match f s r with
          | (s1, some e) => (s1, some e)
          | (s1, none) => scanRows scan s1 rest

/-- The outcome of one `NextWithSqlResult` call: the mutated cursor, the
scanner's final state, the returned `sql.Result` (`none` models Go `nil`)
and the returned error. -/
structure NextOut (σ : Type) where
  rs : ResultSets
  scanSt : σ
  res : Option Unit
  err : Option Err

/-- The part of `NextWithSqlResult` after the not-yet-started block: scan
the positioned result set, surface `Rows.Err()` as a deferred error with a
synthetic success, advance the stream, drain trailing log result sets, and
enforce `DoneAfterNext`. -/
def afterStart {σ : Type} (rs : ResultSets) (scan : Option (σ → Row → σ × Option Err))
    (s0 : σ) : NextOut σ :=
  match rs.rows with
  | none => ⟨rs, s0, none, none⟩
  | some rd =>
      match scanRows scan s0 rd.cur.rows with
      | (s1, some e) => ⟨(ResultSets.Close rs).1, s1, none, some e⟩
      | (s1, none) =>
          match rd.cur.rowsErr with
          | some e =>
              -- close (deferred), store the error on the cursor, and return a
              -- synthetic zero-value success for this call
              ⟨{ (ResultSets.Close rs).1 with err := some e }, s1, some (), none⟩
          | none =>
              match rs.nextResultSet with
              | (rs2, some e) => ⟨(ResultSets.Close rs2).1, s1, none, some e⟩
              | (rs2, none) =>
                  match rs2.processAllLogSelects with
                  | (rs3, _, some e) => ⟨rs3, s1, none, some e⟩
                  | (rs3, _, none) =>
                      if rs3.doneAfterNext && !rs3.Done then
                        ⟨(ResultSets.Close rs3).1, s1, none, some ErrNotDone⟩
                      else
                        ⟨rs3, s1, some (), none⟩

/-- `NextWithSqlResult`: deferred error first, then the done check, then
(on the first call) the leading drain/classify loop, then the scan of the
positioned result set and the post-scan bookkeeping. -/
def NextWithSqlResult {σ : Type} (rs : ResultSets)
    (scan : Option (σ → Row → σ × Option Err)) (s0 : σ) : NextOut σ :=
  match rs.err with
  | some e => ⟨rs, s0, none, some e⟩
  | none =>
      if rs.Done then ⟨rs, s0, none, some ErrNoMoreSets⟩
      else if rs.started then afterStart rs scan s0
      else
        match rs.processAllLogSelects with
        | (rs1, _, some e) => ⟨(ResultSets.Close rs1).1, s0, none, some e⟩
        | (rs1, false, none) => ⟨(ResultSets.Close rs1).1, s0, some (), some ErrNoMoreSets⟩
        | (rs1, true, none) =>
            let rsS : ResultSets := { rs1 with started := true }
            if rsS.Done then ⟨rsS, s0, none, some ErrNoMoreSets⟩
            else afterStart rsS scan s0

/-- `Next` delegates to `NextWithSqlResult` and drops the `sql.Result`. -/
def Next {σ : Type} (rs : ResultSets) (scan : Option (σ → Row → σ × Option Err))
    (s0 : σ) : ResultSets × σ × Option Err :=
  let out := NextWithSqlResult rs scan s0
  (out.rs, out.scanSt, out.err)

/-!  The single-row accumulator of scanner.go (first revision):
`singleScanner` holds a target value, a `hasRead` flag, and — as ghost
instrumentation — the number of `ScanRow` invocations. -/

/-- State of a `singleScanner[T]`.  `value` is the target, `hasRead` the
flag; `scanCalls` is ghost instrumentation counting `ScanRow` calls. -/
structure SingleState (T : Type) where
  value : T
  hasRead : Bool
  scanCalls : Nat

/-- Fresh `singleScanner` state around a zero-valued target. -/
def initSingle {T : Type} (zero : T) : SingleState T :=
  ⟨zero, false, 0⟩

/-- `singleScanner.ScanRow`: a second row is rejected with
`ErrManyRowsExpectedOne` before any scanning; otherwise the row is scanned
into the target (`scanRow0` models `rows.Scan` into `T`). -/
def singleScanRow {T : Type} (scanRow0 : Row → Except Err T)
    (st : SingleState T) (r : Row) : SingleState T × Option Err :=
  let st1 : SingleState T := { st with scanCalls := st.scanCalls + 1 }
  if st1.hasRead then (st1, some ErrManyRowsExpectedOne)
  else
    match scanRow0 r with
    | .error e => (st1, some e)
    | .ok v => ({ st1 with value := v, hasRead := true }, none)

/-- `singleScanner.Result`: no row read yields the zero value together with
`ErrZeroRowsExpectedOne`; otherwise the single scanned value. -/
def singleResult {T : Type} (zero : T) (st : SingleState T) : T × Option Err :=
  if !st.hasRead then (zero, some ErrZeroRowsExpectedOne)
  else (st.value, none)

/-!  The field mapper (reflection file): struct types are modelled as a
list of named fields, each either scalar-like or a struct field whose
flag records whether the Go code recurses into it (anonymous/embedded or
tagged `refl:"recurse"`).  A field address is modelled as the path of
field indices leading to it. -/

/-- A struct field type: scalar-like, or a nested struct with a flag
telling whether the mapper flattens into it. -/
inductive FieldTy where
  | scalar : FieldTy
  | strukt : Bool → List (String × FieldTy) → FieldTy

/-- `deepFieldNamesOfStructType`: field names in declaration order,
flattening through recurse-flagged struct fields; all other fields (scalar
or opaque struct) contribute their own name. -/
def deepFieldNames : List (String × FieldTy) → List String
  | [] => []
  | (_, .strukt true fs) :: rest => deepFieldNames fs ++ deepFieldNames rest
  | (n, _) :: rest => n :: deepFieldNames rest

/-- `DeepFieldPointers`: addresses (index paths) of the same flattened
fields, in the same order as `deepFieldNames`. -/
def deepFieldPtrs (pre : List Nat) : Nat → List (String × FieldTy) → List (List Nat)
  | _, [] => []
  | i, (_, .strukt true fs) :: rest =>
      deepFieldPtrs (pre ++ [i]) 0 fs ++ deepFieldPtrs pre (i + 1) rest
  | i, (_, _) :: rest => (pre ++ [i]) :: deepFieldPtrs pre (i + 1) rest

/-- `canonicalName`: case-folding. -/
def canonicalName (name : String) : String :=
  strToLower name

/-- The `name2index` Go map: built by ascending iteration over `names`, so
a later index overwrites an earlier one — the last occurrence wins. -/
def name2index (names : List String) (col : String) : Option Nat :=
  ((names.enum.filter (fun p => p.2 == col)).getLast?).map (fun p => p.1)

/-- `getPointersToFields`: canonicalise columns and flattened field names,
reorder the field addresses to column order keeping only columns that
match some field, then demand that the number of matches equals the number
of fields and that no column went unmatched. -/
def getPointersToFields (columns0 : List String) (fields : List (String × FieldTy)) :
    Except String (List (List Nat)) :=
  let columns := columns0.map canonicalName
  let names := (deepFieldNames fields).map canonicalName
  let origPtrs := deepFieldPtrs [] 0 fields
  let ptrs := columns.filterMap (fun col =>
    (name2index names col).map (fun j => origPtrs.getD j []))
  if ptrs.length ≠ names.length then
    .error "failed to map all struct fields to query columns"
  else if columns.length > ptrs.length then
    .error "failed to map all query columns to struct fields"
  else
    .ok ptrs

/-!  The logrus log sink (logrusmssql.go, first revision). -/

/-- The logrus severity levels. -/
inductive LogLevel where
  | panicL | fatalL | errorL | warnL | infoL | debugL | traceL
deriving DecidableEq

/-- `logrus.ParseLevel`: case-insensitive parse of a level name. -/
def parseLevel (s : String) : Option LogLevel :=
  match strToLower s with
  | "panic" => some .panicL
  | "fatal" => some .fatalL
  | "error" => some .errorL
  | "warn" => some .warnL
  | "warning" => some .warnL
  | "info" => some .infoL
  | "debug" => some .debugL
  | "trace" => some .traceL
  | _ => none

/-- `logrusEmitLogEntry` (first revision): the level at which the entry is
actually emitted.  The `DebugLevel` case body is empty, so debug-level
entries are dropped; trace-level entries go out through `Debug()`. -/
def logrusEmitLogEntry (lvl : LogLevel) : Option LogLevel :=
  match lvl with
  | .panicL => some .panicL
  | .fatalL => some .fatalL
  | .errorL => some .errorL
  | .warnL => some .warnL
  | .infoL => some .infoL
  | .debugL => none
  | .traceL => some .debugL

/-- One row of a log result set: the first column's value (the level
string) and the remaining column values, modelled as already-string
driver values (so the byte-slice post-processing switch does not fire). -/
structure LogRow where
  level : String
  vals : List String

/-- The named fields of a row's own log entry: columns after the marker
column paired with the row's values. -/
def rowFields (cols : List String) (r : LogRow) : List (String × String) :=
  (cols.drop 1).zip r.vals

/-- The entries emitted for one row by `LogrusMSSQLLogger`: an
`invalid.log.level` meta-entry at `logrus.ErrorLevel` when the level value
does not parse, then the row's own entry at the parsed level (or the
configured default on parse failure). -/
def logrusRowEntries (dflt : LogLevel) (cols : List String) (r : LogRow) :
    List (LogLevel × List (String × String)) :=
  let meta :=
    match parseLevel r.level with
    | some _ => []
    | none =>
        match logrusEmitLogEntry .errorL with
        | some l => [(l, [("event", "invalid.log.level"), ("invalid.level", r.level)])]
        | none => []
  let resolved := (parseLevel r.level).getD dflt
  let own :=
    match logrusEmitLogEntry resolved with
    | some l => [(l, rowFields cols r)]
    | none => []
  meta ++ own

/-- `LogrusMSSQLLogger`: emit the per-row entries in row order; when the
result set had no rows at all, emit one synthetic `_norows` entry at the
default level with every non-marker column present and empty. -/
def logrusMSSQLLogger (dflt : LogLevel) (cols : List String) (rows : List LogRow) :
    List (LogLevel × List (String × String)) :=
  ((rows.map (logrusRowEntries dflt cols)).flatten) ++
    (if rows.isEmpty then
       match logrusEmitLogEntry dflt with
       | some l => [(l, ("_norows", "true") :: (cols.drop 1).map (fun c => (c, "")))]
       | none => []
     else [])

/-!  parse.go: the SQL Server mixed-endian GUID byte shuffle. -/

/-- `ParseSQLUUIDBytes`: demand 16 bytes, then reverse bytes 0..3, swap
4..5 and 6..7, and pass 8..15 through, yielding the bytes handed to
`uuid.FromBytes`. -/
def ParseSQLUUIDBytes (v : List Nat) : Except String (List Nat) :=
  if v.length = 16 then
    .ok [v.getD 0x3 0, v.getD 0x2 0, v.getD 0x1 0, v.getD 0x0 0,
         v.getD 0x5 0, v.getD 0x4 0,
         v.getD 0x7 0, v.getD 0x6 0,
         v.getD 0x8 0, v.getD 0x9 0, v.getD 0xa 0, v.getD 0xb 0,
         v.getD 0xc 0, v.getD 0xd 0, v.getD 0xe 0, v.getD 0xf 0]
  else
    .error "ParseSQLUUIDBytes: did not get 16 bytes"

/-- One lowercase hex digit. -/
def hexDigit (n : Nat) : String :=
  match n with
  | 0 => "0" | 1 => "1" | 2 => "2" | 3 => "3" | 4 => "4"
  | 5 => "5" | 6 => "6" | 7 => "7" | 8 => "8" | 9 => "9"
  | 10 => "a" | 11 => "b" | 12 => "c" | 13 => "d" | 14 => "e" | _ => "f"

/-- Two lowercase hex digits of one byte. -/
def hexByte (n : Nat) : String :=
  hexDigit (n / 16 % 16) ++ hexDigit (n % 16)

/-- Canonical 8-4-4-4-12 text form of a 16-byte UUID (`uuid.UUID.String`). -/
def uuidToString (bs : List Nat) : String :=
  String.join ((bs.take 4).map hexByte) ++ "-" ++
    String.join (((bs.drop 4).take 2).map hexByte) ++ "-" ++
    String.join (((bs.drop 6).take 2).map hexByte) ++ "-" ++
    String.join (((bs.drop 8).take 2).map hexByte) ++ "-" ++
    String.join ((bs.drop 10).map hexByte)

/-!  Helper notions and lemmas about the drain/classify loop. -/

/-- A result set whose drain through the log sink raises no error: its
columns list readable and non-empty, it carries the log marker for the
configured key, and consuming it (via the configured logger or by
discarding) reports no error. -/
def cleanLogSet (key : String) (lg : Option LoggerFn) (s : ResultSet) : Prop :=
  s.colsErr = none ∧ s.cols ≠ [] ∧ hasLogColumnKey key s.cols = true ∧
    logSelectErr lg s = none

/-- The ghost trace entry the log sink records for a result set. -/
def eventOf (lg : Option LoggerFn) (s : ResultSet) : LogEvent :=
  ⟨s.cols, s.rows, lg.isSome⟩

/-- Characterisation of `processAllLogSelects` over a clean prefix of log
result sets: every log result set of the prefix is consumed through the
log sink (recorded in the ghost trace, via the logger exactly when one is
configured), and the loop stops either by closing the handle at the end of
the stream or positioned on the first non-log result set. -/
theorem processAllLogSelects_drains (logPre : List ResultSet) :
    ∀ (rs : ResultSets) (rd : RowsData) (tail : List ResultSet),
      rs.rows = some rd →
      rd.cur :: rd.rest = logPre ++ tail →
      (∀ s ∈ logPre, cleanLogSet rs.logKeyLowercase rs.logger s) →
      ((tail = [] → rd.closeErr = none →
        rs.processAllLogSelects =
          ({ rs with rows := none,
                     nOps := rs.nOps + 3 * logPre.length + 1,
                     nClose := rs.nClose + 1,
                     logTrace := rs.logTrace ++ logPre.map (eventOf rs.logger) },
           true, none)) ∧
       (∀ s tl, tail = s :: tl → s.colsErr = none → s.cols ≠ [] →
         hasLogColumnKey rs.logKeyLowercase s.cols = false →
         rs.processAllLogSelects =
           ({ rs with rows := some ⟨s, tl, rd.closeErr⟩,
                      nOps := rs.nOps + 3 * logPre.length + 1,
                      logTrace := rs.logTrace ++ logPre.map (eventOf rs.logger) },
            true, none))) := by
  induction logPre with
  | nil =>
      intro rs rd tail hrows hsplit hclean
      constructor
      · intro htail
        rw [htail] at hsplit
        simp at hsplit
      · intro s tl htail hce hcne hnl
        rw [htail] at hsplit
        simp only [List.nil_append, List.cons.injEq] at hsplit
        obtain ⟨hcur, hrest⟩ := hsplit
        obtain ⟨rrows, rerr, rdan, rlg, rkey, rst, rnop, rncl, rtr⟩ := rs
        obtain ⟨cur, rest, cerr⟩ := rd
        simp only at hrows hcur hrest ⊢
        subst hrows hcur hrest
        rw [ResultSets.processAllLogSelects]
        simp [hce, hcne, hnl]
  | cons p ps ih =>
      intro rs rd tail hrows hsplit hclean
      have hp : cleanLogSet rs.logKeyLowercase rs.logger p := hclean p (by simp)
      obtain ⟨hpce, hpcne, hplog, hpdrain⟩ := hp
      obtain ⟨rrows, rerr, rdan, rlg, rkey, rst, rnop, rncl, rtr⟩ := rs
      obtain ⟨cur, rest, cerr⟩ := rd
      simp only [List.cons_append, List.cons.injEq] at hsplit
      obtain ⟨hcur, hrest⟩ := hsplit
      simp only at hrows hclean hpce hpcne hplog hpdrain ⊢
      subst hrows hcur hrest
      cases hpt : ps ++ tail with
      | nil =>
          obtain ⟨hps, htail⟩ := List.append_eq_nil.mp hpt
          subst hps htail
          constructor
          · intro _ hcerr
            subst hcerr
            rw [ResultSets.processAllLogSelects]
            simp [hpce, hpcne, hplog, hpdrain, eventOf]
          · intro s tl htl
            simp at htl
      | cons r rest2 =>
          have hrec :
              ResultSets.processAllLogSelects
                ⟨some ⟨cur, r :: rest2, cerr⟩, rerr, rdan, rlg, rkey, rst, rnop, rncl, rtr⟩ =
              ResultSets.processAllLogSelects
                ⟨some ⟨r, rest2, cerr⟩, rerr, rdan, rlg, rkey, rst, rnop + 2 + 1, rncl,
                 rtr ++ [eventOf rlg cur]⟩ := by
            rw [ResultSets.processAllLogSelects]
            simp [hpce, hpcne, hplog, hpdrain, eventOf]
          have hclean2 : ∀ s ∈ ps,
              cleanLogSet
                (ResultSets.logKeyLowercase
                  ⟨some ⟨r, rest2, cerr⟩, rerr, rdan, rlg, rkey, rst, rnop + 2 + 1, rncl,
                   rtr ++ [eventOf rlg cur]⟩)
                (ResultSets.logger
                  ⟨some ⟨r, rest2, cerr⟩, rerr, rdan, rlg, rkey, rst, rnop + 2 + 1, rncl,
                   rtr ++ [eventOf rlg cur]⟩) s := by
            intro s hs
            exact hclean s (List.mem_cons_of_mem _ hs)
          have ihh := ih
            ⟨some ⟨r, rest2, cerr⟩, rerr, rdan, rlg, rkey, rst, rnop + 2 + 1, rncl,
             rtr ++ [eventOf rlg cur]⟩
            ⟨r, rest2, cerr⟩ tail rfl (by rw [hpt]) hclean2
          constructor
          · intro htail hcerr
            have hend := ihh.1 htail hcerr
            rw [hrec, hend]
            simp [ResultSets.mk.injEq, List.append_assoc]
            all_goals omega
          · intro s tl htl hce hcne hnl
            have hpos := ihh.2 s tl htl hce hcne hnl
            rw [hrec, hpos]
            simp [ResultSets.mk.injEq, List.append_assoc]
            all_goals omega

/-- Whatever happens after the scan loop, the scanner's final state is the
one produced by folding it over exactly the positioned result set's rows. -/
theorem afterStart_scanSt {σ : Type} (rs : ResultSets) (rd : RowsData)
    (h : rs.rows = some rd) (scan : Option (σ → Row → σ × Option Err)) (s0 : σ) :
    (afterStart rs scan s0).scanSt = (scanRows scan s0 rd.cur.rows).1 := by
  rcases hsr : scanRows scan s0 rd.cur.rows with ⟨s1, e⟩
  cases e with
  | some e1 => simp [afterStart, h, hsr]
  | none =>
      cases hre : rd.cur.rowsErr with
      | some e2 => simp [afterStart, h, hsr, hre]
      | none =>
          rcases hnx : rs.nextResultSet with ⟨rs2, e3⟩
          cases e3 with
          | some e4 => simp [afterStart, h, hsr, hre, hnx]
          | none =>
              rcases hpa : rs2.processAllLogSelects with ⟨rs3, b, e5⟩
              cases e5 with
              | some e6 => simp [afterStart, h, hsr, hre, hnx, hpa]
              | none =>
                  simp only [afterStart, h, hsr, hre, hnx, hpa]
                  split <;> rfl

/-- Claim C2: a cursor carrying a deferred error (for instance one built by
`New` from a rejected query) returns exactly that error from
`NextWithSqlResult`, with the cursor state — including the ghost operation
and close counters — completely unchanged: the handle is never touched. -/
theorem C2_deferred_error {σ : Type} (rs : ResultSets)
    (scan : Option (σ → Row → σ × Option Err)) (s0 : σ) (e : Err)
    (h : rs.err = some e) :
    NextWithSqlResult rs scan s0 = ⟨rs, s0, none, some e⟩ ∧
    (∀ lg, (New (Except.error e) lg).err = some e) := by
  constructor
  · simp [NextWithSqlResult, h]
  · intro lg
    rfl

/-- Witness for C2 at a concrete cursor built by `New` from a failed query. -/
theorem C2_deferred_error_witness :
    NextWithSqlResult (New (Except.error (Err.other 7)) none)
        (none : Option (Unit → Row → Unit × Option Err)) () =
      ⟨New (Except.error (Err.other 7)) none, (), none, some (Err.other 7)⟩ :=
  (C2_deferred_error (New (Except.error (Err.other 7)) none) none () (Err.other 7) rfl).1

/-- Claim C3: a fresh cursor whose first result set reports an empty column
list (for instance a query with no select at all) closes the handle — so
`Done()` is true — and returns the sentinel `ErrNoMoreSets`; a further call
keeps returning `ErrNoMoreSets`, exactly like an exhausted stream. -/
theorem C3_empty_columns {σ : Type} (rs : ResultSets) (rd : RowsData)
    (scan : Option (σ → Row → σ × Option Err)) (s0 : σ)
    (herr : rs.err = none) (hstart : rs.started = false) (hrows : rs.rows = some rd)
    (hce : rd.cur.colsErr = none) (hcols : rd.cur.cols = []) :
    (NextWithSqlResult rs scan s0).err = some ErrNoMoreSets ∧
    (NextWithSqlResult rs scan s0).rs.rows = none ∧
    (NextWithSqlResult rs scan s0).rs.Done = true ∧
    (NextWithSqlResult (NextWithSqlResult rs scan s0).rs scan s0).err
      = some ErrNoMoreSets := by
  obtain ⟨rrows, rerr, rdan, rlg, rkey, rst, rnop, rncl, rtr⟩ := rs
  obtain ⟨cur, rest, cerr⟩ := rd
  simp only at herr hstart hrows hce hcols
  subst herr hstart hrows
  have hpal :
      ResultSets.processAllLogSelects
        ⟨some ⟨cur, rest, cerr⟩, none, rdan, rlg, rkey, false, rnop, rncl, rtr⟩ =
      (⟨some ⟨cur, rest, cerr⟩, none, rdan, rlg, rkey, false, rnop + 1, rncl, rtr⟩,
       false, none) := by
    rw [ResultSets.processAllLogSelects]
    simp [hce, hcols]
  simp [NextWithSqlResult, ResultSets.Done, hpal, ResultSets.Close]

/-- Witness for C3 at a concrete fresh cursor over one columnless result set. -/
theorem C3_empty_columns_witness :
    (NextWithSqlResult
        ⟨some ⟨⟨[], none, [], none⟩, [], none⟩, none, false, none, "", false, 0, 0, []⟩
        (none : Option (Nat → Row → Nat × Option Err)) 0).err = some ErrNoMoreSets ∧
    (NextWithSqlResult
        ⟨some ⟨⟨[], none, [], none⟩, [], none⟩, none, false, none, "", false, 0, 0, []⟩
        (none : Option (Nat → Row → Nat × Option Err)) 0).rs.rows = none :=
  ⟨(C3_empty_columns _ _ none 0 rfl rfl rfl rfl rfl).1,
   (C3_empty_columns _ _ none 0 rfl rfl rfl rfl rfl).2.1⟩

/-- Claim C7: when the row stream reports an error via `Rows.Err()` after the
rows of a caller-visible result set were scanned, the call closes the handle,
stores the error on the cursor, and returns a synthetic non-nil `sql.Result`
with a nil error; the stored error is returned, unchanged and with the cursor
untouched, by the next call. -/
theorem C7_rows_error_deferred {σ : Type} (rs : ResultSets) (rd : RowsData)
    (scan : Option (σ → Row → σ × Option Err)) (s0 s0' : σ) (s1 : σ) (e : Err)
    (herr : rs.err = none) (hstart : rs.started = true) (hrows : rs.rows = some rd)
    (hscan : scanRows scan s0 rd.cur.rows = (s1, none))
    (hre : rd.cur.rowsErr = some e) :
    NextWithSqlResult rs scan s0 =
      ⟨{ rs with rows := none, err := some e,
                 nOps := rs.nOps + 1, nClose := rs.nClose + 1 }, s1, some (), none⟩ ∧
    NextWithSqlResult
        { rs with rows := none, err := some e,
                  nOps := rs.nOps + 1, nClose := rs.nClose + 1 } scan s0' =
      ⟨{ rs with rows := none, err := some e,
                 nOps := rs.nOps + 1, nClose := rs.nClose + 1 }, s0', none, some e⟩ := by
  obtain ⟨rrows, rerr, rdan, rlg, rkey, rst, rnop, rncl, rtr⟩ := rs
  obtain ⟨cur, rest, cerr⟩ := rd
  simp only at herr hstart hrows hscan hre
  subst herr hstart hrows
  constructor
  · simp [NextWithSqlResult, ResultSets.Done, afterStart, hscan, hre, ResultSets.Close]
  · simp [NextWithSqlResult]

/-- Witness for C7 at a concrete started cursor whose current result set
reports a row-iteration error after its single row. -/
theorem C7_rows_error_deferred_witness :
    NextWithSqlResult
        ⟨some ⟨⟨["x"], none, [["1"]], some (Err.other 9)⟩, [], none⟩,
         none, false, none, "", true, 0, 0, []⟩
        (none : Option (Nat → Row → Nat × Option Err)) 0 =
      ⟨⟨none, some (Err.other 9), false, none, "", true, 1, 1, []⟩, 0, some (), none⟩ :=
  (C7_rows_error_deferred
    ⟨some ⟨⟨["x"], none, [["1"]], some (Err.other 9)⟩, [], none⟩,
     none, false, none, "", true, 0, 0, []⟩
    ⟨⟨["x"], none, [["1"]], some (Err.other 9)⟩, [], none⟩
    none 0 0 0 (Err.other 9) rfl rfl rfl rfl rfl).1

/-- Claim C10: `Close` nulls the handle before delegating to the underlying
close hook, so after any `Close` the cursor is `Done` even when the hook
returned an error, and a second `Close` returns nil without invoking the
hook again (the ghost close counter does not move). -/
theorem C10_close_idempotent (rs : ResultSets) :
    ((rs.Close).1.rows = none) ∧
    ((rs.Close).1.Done = true) ∧
    ((rs.Close).1.Close = ((rs.Close).1, none)) ∧
    ((rs.Close).1.Close.1.nClose = (rs.Close).1.nClose) ∧
    (∀ rd, rs.rows = some rd →
      (rs.Close).2 = rd.closeErr ∧ (rs.Close).1.nClose = rs.nClose + 1) ∧
    (rs.rows = none → rs.Close = (rs, none)) := by
  rcases h : rs.rows with _ | rd
  · refine ⟨?_, ?_, ?_, ?_, ?_, ?_⟩ <;>
      simp [ResultSets.Close, ResultSets.Done, h]
  · refine ⟨?_, ?_, ?_, ?_, ?_, ?_⟩ <;>
      simp [ResultSets.Close, ResultSets.Done, h]

/-- Witness for C10 at a concrete cursor whose close hook fails. -/
theorem C10_close_idempotent_witness :
    ((⟨some ⟨⟨["x"], none, [], none⟩, [], some (Err.other 3)⟩,
       none, false, none, "", true, 0, 0, []⟩ : ResultSets).Close).2
        = some (Err.other 3) ∧
    ((⟨some ⟨⟨["x"], none, [], none⟩, [], some (Err.other 3)⟩,
       none, false, none, "", true, 0, 0, []⟩ : ResultSets).Close).1.Done = true :=
  ⟨((C10_close_idempotent _).2.2.2.2.1
      ⟨⟨["x"], none, [], none⟩, [], some (Err.other 3)⟩ rfl).1,
   (C10_close_idempotent _).2.1⟩

/-!  Concrete fixtures used by the witnesses. -/

/-- Concrete log result set with one row. -/
def wLog1 : ResultSet := ⟨["_", "m"], none, [["info", "a"]], none⟩

/-- Concrete empty log result set. -/
def wLog2 : ResultSet := ⟨["_"], none, [], none⟩

/-- Concrete data result set with two rows. -/
def wData : ResultSet := ⟨["x"], none, [["1"], ["2"]], none⟩

/-- A logger that consumes everything and reports no error. -/
def wLogger : LoggerFn := fun _ _ => none

/-- Fresh cursor positioned before two log result sets and a data set. -/
def wRS : ResultSets :=
  ⟨some ⟨wLog1, [wLog2, wData], none⟩, none, false, some wLogger, "", false, 0, 0, []⟩

/-- Row-counting scanner. -/
def wCount : Nat → Row → Nat × Option Err := fun n _ => (n + 1, none)

/-- Claim C1: on an advance of the cursor, the drain/classify loop consumes
every leading result set carrying the log marker (first column named
underscore, or lower-cased equal to the configured non-empty
`LogKeyLowercase`) — each recorded in the ghost trace, consumed via the
configured `RowsLogger` exactly when one is set and by reading-and-discarding
otherwise — and stops only at the end of the stream (handle closed) or
positioned on the first non-log result set; on a fresh cursor the caller's
scanner is then fed exactly the rows of that first non-log result set, so no
log result set is ever surfaced. -/
theorem C1_log_sets_drained (rs : ResultSets) (rd : RowsData)
    (logPre tail : List ResultSet)
    (hrows : rs.rows = some rd) (hsplit : rd.cur :: rd.rest = logPre ++ tail)
    (hclean : ∀ s ∈ logPre, cleanLogSet rs.logKeyLowercase rs.logger s) :
    (tail = [] → rd.closeErr = none →
      rs.processAllLogSelects =
        ({ rs with rows := none,
                   nOps := rs.nOps + 3 * logPre.length + 1,
                   nClose := rs.nClose + 1,
                   logTrace := rs.logTrace ++ logPre.map (eventOf rs.logger) },
         true, none)) ∧
    (∀ s tl, tail = s :: tl → s.colsErr = none → s.cols ≠ [] →
      rs.hasLogColumn s.cols = false →
      rs.processAllLogSelects =
        ({ rs with rows := some ⟨s, tl, rd.closeErr⟩,
                   nOps := rs.nOps + 3 * logPre.length + 1,
                   logTrace := rs.logTrace ++ logPre.map (eventOf rs.logger) },
         true, none)) ∧
    (∀ {σ : Type} (scan : Option (σ → Row → σ × Option Err)) (s0 : σ) (s : ResultSet)
        (tl : List ResultSet),
      tail = s :: tl → s.colsErr = none → s.cols ≠ [] →
      rs.hasLogColumn s.cols = false → rs.err = none → rs.started = false →
      (NextWithSqlResult rs scan s0).scanSt = (scanRows scan s0 s.rows).1) := by
  have hmain := processAllLogSelects_drains logPre rs rd tail hrows hsplit hclean
  refine ⟨hmain.1, ?_, ?_⟩
  · intro s tl htl hce hcne hnl
    exact hmain.2 s tl htl hce hcne hnl
  · intro σ scan s0 s tl htl hce hcne hnl herr hst
    have hpos := hmain.2 s tl htl hce hcne hnl
    have hdone : rs.Done = false := by simp [ResultSets.Done, hrows]
    have heq :
        NextWithSqlResult rs scan s0 =
          afterStart
            { rs with rows := some ⟨s, tl, rd.closeErr⟩,
                      nOps := rs.nOps + 3 * logPre.length + 1,
                      logTrace := rs.logTrace ++ logPre.map (eventOf rs.logger),
                      started := true } scan s0 := by
      simp [NextWithSqlResult, herr, hst, hdone, hpos, hrows, ResultSets.Done]
    rw [heq, afterStart_scanSt _ ⟨s, tl, rd.closeErr⟩ rfl]

/-- Witness for C1: two clean log result sets before a data set; the drain
loop stops positioned on the data set with both log sets in the trace, and a
row-counting scanner sees exactly the data set's two rows. -/
theorem C1_log_sets_drained_witness :
    wRS.processAllLogSelects =
      ({ wRS with rows := some ⟨wData, [], none⟩, nOps := 7,
                  logTrace := [eventOf wRS.logger wLog1, eventOf wRS.logger wLog2] },
       true, none) ∧
    (NextWithSqlResult wRS (some wCount) 0).scanSt = 2 := by
  have hclean : ∀ s ∈ [wLog1, wLog2],
      cleanLogSet wRS.logKeyLowercase wRS.logger s := by
    intro s hs
    simp only [List.mem_cons, List.not_mem_nil, or_false] at hs
    rcases hs with h | h
    · subst h; exact ⟨rfl, by simp [wLog1], rfl, rfl⟩
    · subst h; exact ⟨rfl, by simp [wLog2], rfl, rfl⟩
  constructor
  · exact (C1_log_sets_drained wRS ⟨wLog1, [wLog2, wData], none⟩ [wLog1, wLog2] [wData]
      rfl rfl hclean).2.1 wData [] rfl rfl (by simp [wData]) rfl
  · have h := (C1_log_sets_drained wRS ⟨wLog1, [wLog2, wData], none⟩ [wLog1, wLog2] [wData]
      rfl rfl hclean).2.2 (some wCount) 0 wData [] rfl rfl (by simp [wData]) rfl rfl rfl
    rw [h]
    rfl

/-- Claim C4: with `DoneAfterNext` set (the mode `EnsureDoneAfterNext`
installs for the single-result helpers), a successfully consumed
caller-visible result set followed — after draining any trailing clean log
result sets — by a further result set makes `Next` close the handle and
return the distinct sentinel `ErrNotDone`. -/
theorem C4_must_be_done {σ : Type} (rs : ResultSets) (rd : RowsData)
    (logPre : List ResultSet) (s2 : ResultSet) (tl : List ResultSet)
    (scan : Option (σ → Row → σ × Option Err)) (s0 : σ) (s1 : σ)
    (herr : rs.err = none) (hstart : rs.started = true) (hdan : rs.doneAfterNext = true)
    (hrows : rs.rows = some rd)
    (hscan : scanRows scan s0 rd.cur.rows = (s1, none))
    (hre : rd.cur.rowsErr = none)
    (hrest : rd.rest = logPre ++ s2 :: tl)
    (hclean : ∀ s ∈ logPre, cleanLogSet rs.logKeyLowercase rs.logger s)
    (hs2ce : s2.colsErr = none) (hs2ne : s2.cols ≠ [])
    (hs2nl : rs.hasLogColumn s2.cols = false) :
    (NextWithSqlResult rs scan s0).err = some ErrNotDone ∧
    (NextWithSqlResult rs scan s0).rs.rows = none ∧
    (NextWithSqlResult rs scan s0).res = none ∧
    ErrNotDone ≠ ErrNoMoreSets ∧
    (rs.EnsureDoneAfterNext).doneAfterNext = true := by
  have hne : ErrNotDone ≠ ErrNoMoreSets := by
    simp [ErrNotDone, ErrNoMoreSets]
  obtain ⟨rrows, rerr, rdan, rlg, rkey, rst, rnop, rncl, rtr⟩ := rs
  obtain ⟨cur, rest, cerr⟩ := rd
  simp only at herr hstart hdan hrows hscan hre hrest hclean hs2nl ⊢
  subst herr hstart hdan hrows hrest
  rw [ResultSets.hasLogColumn] at hs2nl
  simp only at hs2nl
  cases logPre with
  | nil =>
      have hpal :
          ResultSets.processAllLogSelects
            ⟨some ⟨s2, tl, cerr⟩, none, true, rlg, rkey, true, rnop + 1, rncl, rtr⟩ =
          (⟨some ⟨s2, tl, cerr⟩, none, true, rlg, rkey, true, rnop + 2, rncl, rtr⟩,
           true, none) := by
        rw [ResultSets.processAllLogSelects]
        simp [hs2ce, hs2ne, hs2nl]
      refine ⟨?_, ?_, ?_, hne, rfl⟩ <;>
        simp [NextWithSqlResult, ResultSets.Done, afterStart, hscan, hre,
          ResultSets.nextResultSet, hpal, ResultSets.Close]
  | cons p ps =>
      have hclean2 : ∀ s ∈ p :: ps, cleanLogSet rkey rlg s := hclean
      have hp := (processAllLogSelects_drains (p :: ps)
          ⟨some ⟨p, ps ++ s2 :: tl, cerr⟩, none, true, rlg, rkey, true,
           rnop + 1, rncl, rtr⟩
          ⟨p, ps ++ s2 :: tl, cerr⟩ (s2 :: tl) rfl (by simp) hclean2).2
          s2 tl rfl hs2ce hs2ne hs2nl
      refine ⟨?_, ?_, ?_, hne, rfl⟩ <;>
        simp [NextWithSqlResult, ResultSets.Done, afterStart, hscan, hre,
          ResultSets.nextResultSet, hp, ResultSets.Close]

/-- Witness for C4: a started, `DoneAfterNext` cursor on a consumed data set
with one further data set remaining returns `ErrNotDone` and closes. -/
theorem C4_must_be_done_witness :
    (NextWithSqlResult
        ⟨some ⟨wData, [⟨["y"], none, [], none⟩], none⟩,
         none, true, none, "", true, 0, 0, []⟩
        (some wCount) 0).err = some ErrNotDone ∧
    (NextWithSqlResult
        ⟨some ⟨wData, [⟨["y"], none, [], none⟩], none⟩,
         none, true, none, "", true, 0, 0, []⟩
        (some wCount) 0).rs.rows = none := by
  have h := C4_must_be_done
    ⟨some ⟨wData, [⟨["y"], none, [], none⟩], none⟩, none, true, none, "", true, 0, 0, []⟩
    ⟨wData, [⟨["y"], none, [], none⟩], none⟩
    [] ⟨["y"], none, [], none⟩ [] (some wCount) 0 2
    rfl rfl rfl rfl rfl rfl rfl (by intro s hs; simp at hs) rfl (by simp) rfl
  exact ⟨h.1, h.2.1⟩

/-- Claim C5: the single-row accumulator returns `ErrZeroRowsExpectedOne`
(which wraps `sql.ErrNoRows`, so `errors.Is` detects emptiness) on zero rows,
returns the scanned value without error on exactly one row, and rejects the
second row with `ErrManyRowsExpectedOne` immediately — the ghost call counter
shows the third row is never consumed. -/
theorem C5_single_accumulator {T : Type} (zero : T) (scanRow0 : Row → Except Err T)
    (r r1 r2 : Row) (more : List Row) (v v1 : T)
    (h1 : scanRow0 r = .ok v) (h2 : scanRow0 r1 = .ok v1) :
    (singleResult zero
        (scanRows (some (singleScanRow scanRow0)) (initSingle zero) []).1
      = (zero, some ErrZeroRowsExpectedOne)) ∧
    errorsIs ErrZeroRowsExpectedOne Err.sqlErrNoRows = true ∧
    (scanRows (some (singleScanRow scanRow0)) (initSingle zero) [r]
      = (⟨v, true, 1⟩, none)) ∧
    (singleResult zero (⟨v, true, 1⟩ : SingleState T) = (v, none)) ∧
    (scanRows (some (singleScanRow scanRow0)) (initSingle zero) (r1 :: r2 :: more)
      = (⟨v1, true, 2⟩, some ErrManyRowsExpectedOne)) := by
  refine ⟨rfl, rfl, ?_, rfl, ?_⟩
  · simp [scanRows, singleScanRow, initSingle, h1]
  · simp [scanRows, singleScanRow, initSingle, h2]

/-- Witness for C5 with a length-scanning row target. -/
theorem C5_single_accumulator_witness :
    (scanRows (some (singleScanRow (fun (row : Row) => (Except.ok row.length : Except Err Nat))))
        (initSingle 0) [["a"]] = (⟨1, true, 1⟩, none)) ∧
    (scanRows (some (singleScanRow (fun (row : Row) => (Except.ok row.length : Except Err Nat))))
        (initSingle 0) ([] :: ["b", "c"] :: [["d"]])
      = (⟨0, true, 2⟩, some ErrManyRowsExpectedOne)) :=
  ⟨(C5_single_accumulator 0 (fun (row : Row) => (Except.ok row.length : Except Err Nat))
      ["a"] [] ["b", "c"] [["d"]] 1 0 rfl rfl).2.2.1,
   (C5_single_accumulator 0 (fun (row : Row) => (Except.ok row.length : Except Err Nat))
      ["a"] [] ["b", "c"] [["d"]] 1 0 rfl rfl).2.2.2.2⟩

/-- A struct with two scalar fields whose canonical names are `a` and `b`. -/
def demoStruct : List (String × FieldTy) := [("A", FieldTy.scalar), ("B", FieldTy.scalar)]

/-- Claim C6, evaluated at the failing input: for the two-field struct
`demoStruct` and the duplicate column list `[a, a]`, `getPointersToFields`
returns success with both scan pointers aimed at the first field — the
second field is never bound and the binding is not one-to-one, yet no error
is raised, because the success check counts matched columns rather than
distinct matched fields. -/
theorem C6_duplicate_column_partial_map :
    getPointersToFields ["a", "a"] demoStruct = Except.ok [[0], [0]] ∧
    (deepFieldNames demoStruct).map canonicalName = ["a", "b"] ∧
    deepFieldPtrs [] 0 demoStruct = [[0], [1]] := by
  refine ⟨?_, ?_, ?_⟩ <;>
    simp [getPointersToFields, deepFieldNames, deepFieldPtrs, canonicalName,
      name2index, strToLower, demoStruct, List.enum, List.enumFrom,
      List.filterMap, List.find?]

/-- Counterexample to C8 as stated: on an unparseable level value the meta
entry is emitted at the error level, which is not the warning level. -/
theorem C8_counterexample :
    logrusMSSQLLogger LogLevel.infoL ["_", "x"] [⟨"bogus", ["7"]⟩]
      = [(LogLevel.errorL, [("event", "invalid.log.level"), ("invalid.level", "bogus")]),
         (LogLevel.infoL, [("x", "7")])] ∧
    LogLevel.errorL ≠ LogLevel.warnL :=
  ⟨rfl, by decide⟩

/-- Claim C8 as amended: for every row whose level value does not parse, the
log sink emits exactly one meta-entry — at the error level — carrying the
event marker and the invalid value, followed by the row's own entry at the
configured default level (for default levels that `logrusEmitLogEntry`
emits unchanged, which excludes debug and trace). -/
theorem C8_invalid_level_meta_entry (dflt : LogLevel) (cols : List String)
    (r : LogRow) (pre rest : List LogRow)
    (hparse : parseLevel r.level = none)
    (hemit : logrusEmitLogEntry dflt = some dflt) :
    logrusMSSQLLogger dflt cols (pre ++ r :: rest)
      = (pre.map (logrusRowEntries dflt cols)).flatten ++
          (LogLevel.errorL, [("event", "invalid.log.level"), ("invalid.level", r.level)])
          :: (dflt, rowFields cols r)
          :: (rest.map (logrusRowEntries dflt cols)).flatten := by
  have herrL : logrusEmitLogEntry LogLevel.errorL = some LogLevel.errorL := rfl
  simp [logrusMSSQLLogger, logrusRowEntries, hparse, hemit, herrL]

/-- Witness for C8 (amended) at a concrete unparseable level value. -/
theorem C8_invalid_level_meta_entry_witness :
    logrusMSSQLLogger LogLevel.infoL ["_", "x"] [⟨"nope", ["5"]⟩]
      = [(LogLevel.errorL, [("event", "invalid.log.level"), ("invalid.level", "nope")]),
         (LogLevel.infoL, [("x", "5")])] := by
  have h := C8_invalid_level_meta_entry LogLevel.infoL ["_", "x"] ⟨"nope", ["5"]⟩ [] [] rfl rfl
  simpa using h

/-- Claim C9: `ParseSQLUUIDBytes` reorders a 16-byte value exactly as the
mixed-endian shuffle prescribes (reverse 0..3, swap 4..5, swap 6..7, pass
8..15), the canonical example maps to `03020100-0504-0706-0809-0a0b0c0d0e0f`,
and any other input length is rejected. -/
theorem C9_uuid_shuffle :
    (∀ v : List Nat, v.length = 16 →
      ParseSQLUUIDBytes v =
        Except.ok [v.getD 3 0, v.getD 2 0, v.getD 1 0, v.getD 0 0,
                   v.getD 5 0, v.getD 4 0, v.getD 7 0, v.getD 6 0,
                   v.getD 8 0, v.getD 9 0, v.getD 10 0, v.getD 11 0,
                   v.getD 12 0, v.getD 13 0, v.getD 14 0, v.getD 15 0]) ∧
    ((ParseSQLUUIDBytes [0, 1, 2, 3, 4, 5, 6, 7, 8, 9, 10, 11, 12, 13, 14, 15]).map
        uuidToString = Except.ok "03020100-0504-0706-0809-0a0b0c0d0e0f") ∧
    (∀ w : List Nat, w.length ≠ 16 →
      ParseSQLUUIDBytes w = Except.error "ParseSQLUUIDBytes: did not get 16 bytes") := by
  refine ⟨?_, rfl, ?_⟩
  · intro v hv
    simp [ParseSQLUUIDBytes, hv]
  · intro w hw
    simp [ParseSQLUUIDBytes, hw]

/-- Witness for C9 at the canonical byte sequence and a short input. -/
theorem C9_uuid_shuffle_witness :
    ParseSQLUUIDBytes [0, 1, 2, 3, 4, 5, 6, 7, 8, 9, 10, 11, 12, 13, 14, 15]
      = Except.ok [3, 2, 1, 0, 5, 4, 7, 6, 8, 9, 10, 11, 12, 13, 14, 15] ∧
    ParseSQLUUIDBytes [1, 2, 3] = Except.error "ParseSQLUUIDBytes: did not get 16 bytes" :=
  ⟨C9_uuid_shuffle.1 [0, 1, 2, 3, 4, 5, 6, 7, 8, 9, 10, 11, 12, 13, 14, 15] rfl,
   C9_uuid_shuffle.2.2 [1, 2, 3] (by decide)⟩

end QuerySql
